import Mathlib

/-!
# Verification of the Virtual-FTMW spectral-synthesis engine

A shallow embedding of `src/acquire_spectra.py` and
`src/acquire_spectra_utils.py` from the RastonLab/Virtual-FTMW-Functions
repository, together with theorems settling the frozen claims about it.

Modelling conventions:
* Frequencies, grid coordinates and all request parameters are rationals
  (`ℚ`): exact versions of the Python floats, fully computable and
  decidable, so that concrete scenarios can be settled by `decide`.
* Intensity values are real (`ℝ`), because the Lorentzian profile divides
  by `π` and the noise level divides by a square root; these are carried
  symbolically.
* numpy's ambient random generator is modelled by an explicit list of
  standard-normal draws passed into each noise-adding function: the drawn
  noise sample at a point is `noise_level * unit[i]`, exactly the
  distributional content of `np.random.normal(0, noise_level, shape)`.
* Python exceptions (`raise ValueError`, implicit `TypeError`/`NameError`)
  are modelled with `Except PyErr`; a normal `return` of a result
  dictionary is `Except.ok`.
-/

namespace FTMW

/-- A Python value as it appears in the request dictionary: `None`, a
number, or a string. -/
inductive PVal
  | none
  | num (q : ℚ)
  | str (s : String)
deriving DecidableEq

/-- The request dictionary: association list from parameter names to
values (Python dict keys are unique; the lists built by `mk_params` below
are). -/
abbrev Params := List (String × PVal)

/-- `params[key]` / presence lookup. -/
def pget (params : Params) (key : String) : Option PVal :=
  (params.find? (fun kv => kv.1 == key)).map (fun kv => kv.2)

/-- Python `params.get(key)`: `None` both when the key is absent and when
it is stored as `None`. -/
def pgetN (params : Params) (key : String) : PVal :=
  (pget params key).getD PVal.none

/-- Python `params.get(key, default)`: the default only when the key is
absent. -/
def pgetD (params : Params) (key : String) (default : PVal) : PVal :=
  (pget params key).getD default

/-- Python `v is None`. -/
def PVal.isNone : PVal → Bool
  | .none => true
  | _ => false

/-- Python `v == s` for a string literal `s`: false for `None` and for
numbers. -/
def PVal.eqStr : PVal → String → Bool
  | .str t, s => t == s
  | _, _ => false

/-- A raised Python exception. -/
inductive PyErr
  | valueError (msg : String)
  | typeError
  | nameError
deriving DecidableEq

/-- Using a `PVal` where Python arithmetic (`-`, `np.sqrt`, `/`) needs a
number: a non-number raises `TypeError`. -/
def PVal.toNum : PVal → Except PyErr ℚ
  | .num q => .ok q
  | _ => .error .typeError

/-- `valid_params` from `acquire_spectra_utils.py` lines 36-48. -/
def valid_params : List String :=
  ["molecule", "stepSize", "frequencyMin", "frequencyMax",
   "numCyclesPerStep", "microwavePulseWidth", "mwBand", "repetitionRate",
   "molecularPulseWidth", "acquisitionType", "vres"]

/-- `param_check` from `acquire_spectra_utils.py` lines 25-55: exactly 11
parameters, every key one of `valid_params`, no value `None`. -/
def param_check (params : Params) : Bool :=
  if params.length != 11 then false
  else params.all (fun kv => valid_params.contains kv.1 && !kv.2.isNone)

/-- `molecule_to_file` from `acquire_spectra_utils.py` lines 10-19. -/
def molecule_to_file : List (String × String) :=
  [("C6H5CN", "C6H5CN.dat"), ("HC7N", "HC7N.dat"), ("CH2CHCN", "CH2CHCN.dat"),
   ("CH2CHOH", "CH2CHOH.dat"), ("HOCH2CH2OH", "HOCH2CH2OH.dat"),
   ("NH2CONH2", "NH2CONH2.dat"), ("OC3S", "OC3S.dat"), ("OCS", "OCS.dat")]

/-- `get_datafile` from `acquire_spectra_utils.py` lines 4-23: unknown
identifiers `raise ValueError` (the error message is the source text with
the quotes around the molecule name omitted).  The argument is the raw
request value: any non-string is likewise not a key of the mapping. -/
def get_datafile (molecule : PVal) (directory : String := "linelists") :
    Except PyErr String :=
  match molecule with
  | .str s =>
    match (molecule_to_file.find? (fun kv => kv.1 == s)).map (fun kv => kv.2) with
    | some filename => .ok (directory ++ "/" ++ filename)
    | Option.none =>
      .error (.valueError ("No data file mapping found for molecule " ++ s ++ "."))
  | _ => .error (.valueError "No data file mapping found for molecule.")

/-- `np.arange(start, stop, step)` over exact rationals: the samples
`start + k*step` for `0 ≤ k < ⌈(stop - start)/step⌉` (numpy documents the
length as `ceil((stop-start)/step)`; the interval is half-open). -/
def arange (start stop step : ℚ) : List ℚ :=
  (List.range (Int.toNat ⌈(stop - start) / step⌉)).map
    (fun k : ℕ => start + step * (k : ℚ))

noncomputable section

/-- Elementwise sum of two numpy arrays (equal length throughout the
pipeline). -/
def addv (xs ys : List ℝ) : List ℝ := List.zipWith (fun a b => a + b) xs ys

/-- Elementwise product of two numpy arrays. -/
def mulv (xs ys : List ℝ) : List ℝ := List.zipWith (fun a b => a * b) xs ys

/-- `scalar * array` numpy broadcasting. -/
def scale (c : ℝ) (xs : List ℝ) : List ℝ := xs.map (fun y => c * y)

/-- `lorentzian_profile` from `acquire_spectra_utils.py` lines 57-60,
at one grid point: `(1/pi) * (hwhm / ((v-center)**2 + hwhm**2))` with
`hwhm = fwhm/2`. -/
def lorentzian_at (v center fwhm : ℚ) : ℝ :=
  let hwhm : ℚ := fwhm / 2
  (1 / Real.pi) * ((hwhm : ℝ) / (((v : ℝ) - (center : ℝ)) ^ 2 + (hwhm : ℝ) ^ 2))

/-- `lorentzian_profile` over a whole grid. -/
def lorentzian_profile (grid : List ℚ) (center fwhm : ℚ) : List ℝ :=
  grid.map (fun v => lorentzian_at v center fwhm)

/-- The standard deviation `noise_level` computed at
`acquire_spectra_utils.py` lines 66-69: `0.01/np.sqrt(cycles)` for the
cavity channel, `0.05/np.sqrt(cycles)` for the molecular-signal channel.
For `cycles ≤ 0`, numpy's `sqrt` yields `nan` (with a warning) and the
drawn samples are non-finite, but no exception is raised; in this exact
model `Real.sqrt` of a nonpositive number is `0` and division by `0` is
`0`, so the value is junk there too — only `cycles > 0` values are
meaningful. -/
def noise_level (num_cycles_per_step : ℚ) (is_cavity_mode : Bool) : ℝ :=
  if is_cavity_mode then 0.01 / Real.sqrt (num_cycles_per_step : ℝ)
  else 0.05 / Real.sqrt (num_cycles_per_step : ℝ)

/-- `add_white_noise` from `acquire_spectra_utils.py` lines 62-72.  The
random draw `np.random.normal(0, noise_level, spectrum.shape)` is modelled
as `noise_level * unit[i]` with `unit` an explicit list of standard-normal
draws.  The function performs no validation of `num_cycles_per_step`. -/
def add_white_noise (spectrum : List ℝ) (num_cycles_per_step : ℚ)
    (is_cavity_mode : Bool) (unit : List ℝ) : List ℝ :=
  addv spectrum (scale (noise_level num_cycles_per_step is_cavity_mode) unit)

/-- One cavity-mode Lorentzian over the grid, as written twice in
`apply_cavity_mode_response` (`acquire_spectra_utils.py` lines 90-91 with
`center = v_res`, and lines 105-106 inside the range-mode loop):
`Pmax * ((gamma/2)**2 / ((v - center)**2 + (gamma/2)**2))`,
`gamma = center / Q`. -/
def cavity_lorentzian (grid : List ℚ) (center Q Pmax : ℚ) : List ℝ :=
  let gamma : ℚ := center / Q
  grid.map (fun v =>
    (Pmax : ℝ) * (((gamma / 2 : ℚ) : ℝ) ^ 2 /
      (((v : ℝ) - (center : ℝ)) ^ 2 + ((gamma / 2 : ℚ) : ℝ) ^ 2)))

/-- `apply_cavity_mode_response` from `acquire_spectra_utils.py` lines
74-113.  `v_res` is passed through as the raw request value (used, and
hence coerced, only in single mode).  An `acquisitionType` that is neither
"single" nor "range" leaves the Python name `cavity_response` unbound, so
the later use raises `NameError`.  The cavity-channel random draws are the
explicit `cavity_unit` list. -/
def apply_cavity_mode_response (params : Params) (frequency_grid : List ℚ)
    (spectrum : List ℝ) (v_res : PVal) (Q : ℚ := 10000) (Pmax : ℚ := 1)
    (cavity_unit : List ℝ := []) : Except PyErr (List ℝ) := do
  let frequencyMode := pgetD params "acquisitionType" (PVal.str "single")
  let num_cycles_per_step := pgetD params "numCyclesPerStep" (PVal.num 1)
  let cavity_response ←
    if frequencyMode.eqStr "single" then do
      let vr ← v_res.toNum
      pure (cavity_lorentzian frequency_grid vr Q Pmax)
    else if frequencyMode.eqStr "range" then do
      let frequency_min := pgetN params "frequencyMin"
      let frequency_max := pgetN params "frequencyMax"
      let stepSize := pgetN params "stepSize"
      if frequency_min.isNone || frequency_max.isNone || stepSize.isNone then
        throw (PyErr.valueError
          "For frequency range mode, frequencyMin, frequencyMax, and stepSize must be provided.")
      else do
        let fmin ← frequency_min.toNum
        let fmax ← frequency_max.toNum
        let step ← stepSize.toNum
        let centers := arange fmin (fmax + step) step
        pure (centers.foldl
          (fun acc center => addv acc (cavity_lorentzian frequency_grid center Q Pmax))
          (List.replicate frequency_grid.length 0))
    else
      throw PyErr.nameError
  let cycles ← num_cycles_per_step.toNum
  pure (mulv spectrum (add_white_noise cavity_response cycles true cavity_unit))

/-- Speed of light in m/s (`acquire_spectra.py` line 57). -/
def c_SI : ℚ := 299792458

/-- Helium velocity in m/s (`acquire_spectra.py` line 58). -/
def vrms : ℚ := 1760

/-- The local frequency grid of one spectral line
(`acquire_spectra.py` line 69): `np.arange(f - window, f + window,
resolution)`. -/
def local_grid (f window resolution : ℚ) : List ℚ :=
  arange (f - window) (f + window) resolution

/-- The local spectrum of one line `(f, I)` (`acquire_spectra.py` lines
69-77), with the carrier velocity `vel` a parameter (the source fixes
`vel = vrms`): the split offset is `(f / c_SI) * vel`, and the spectrum is
the sum of the two intensity-scaled Lorentzian profiles centred at
`f + split` and `f - split`. -/
def local_spectrum (f : ℚ) (I : ℝ) (window resolution fwhm vel : ℚ) : List ℝ :=
  let grid := local_grid f window resolution
  let split_val := (f / c_SI) * vel
  let add_split := f + split_val
  let subtract_split := f - split_val
  let profile_main := scale I (lorentzian_profile grid add_split fwhm)
  let profile_split := scale I (lorentzian_profile grid subtract_split fwhm)
  addv profile_main profile_split

/-- Inner loop of `np.interp` once the query `v` is known to be `≥ x1`:
either `v` lies in the segment `[x1, x2]` of the next point (linear
interpolation), or we advance; past the last point the `right=0` padding
applies (the value at the last point itself is its own `y`). -/
def interp_from (v : ℚ) (x1 : ℚ) (y1 : ℝ) : List (ℚ × ℝ) → ℝ
  | [] => if x1 < v then 0 else y1
  | (x2, y2) :: rest =>
    if v ≤ x2 then
      y1 + (y2 - y1) * (((v - x1 : ℚ) : ℝ) / ((x2 - x1 : ℚ) : ℝ))
    else interp_from v x2 y2 rest

/-- `np.interp(v, xp, fp, left=0, right=0)` for one query point `v`, the
sample points given as the list `pts = xp.zip fp` (assumed sorted in `xp`,
as every grid in the pipeline is): `0` strictly left of the first sample
point and strictly right of the last, linear interpolation inside. -/
def interp (v : ℚ) : List (ℚ × ℝ) → ℝ
  | [] => 0
  | (x1, y1) :: rest => if v < x1 then 0 else interp_from v x1 y1 rest

/-- `np.interp(xs, xp, fp, left=0, right=0)` over a whole query grid
(`acquire_spectra.py` line 87). -/
def np_interp (xs : List ℚ) (xp : List ℚ) (fp : List ℝ) : List ℝ :=
  xs.map (fun v => interp v (xp.zip fp))

/-- The overall frequency grid (`acquire_spectra.py` line 82). -/
def final_grid (crop_min crop_max resolution : ℚ) : List ℚ :=
  arange crop_min crop_max resolution

/-- Grid accumulation (`acquire_spectra.py` lines 83-87): the global
spectrum starts as `np.zeros_like(final_grid)` and every local spectrum is
added after interpolation onto the global grid. -/
def accumulate (grid : List ℚ) (spectra : List (List ℚ × List ℝ)) : List ℝ :=
  spectra.foldl (fun acc ls => addv acc (np_interp grid ls.1 ls.2))
    (List.replicate grid.length 0)

/-- The line filter (`acquire_spectra.py` lines 61-64): keep the lines with
`f + window >= crop_min` and `f - window <= crop_max` (the boolean mask is
applied to the frequency and intensity arrays alike, i.e. to the pairs). -/
def filter_lines (lines : List (ℚ × ℝ)) (window crop_min crop_max : ℚ) :
    List (ℚ × ℝ) :=
  lines.filter (fun fi =>
    decide (crop_min ≤ fi.1 + window) && decide (fi.1 - window ≤ crop_max))

/-- Crop-bound computation (`acquire_spectra.py` lines 37-47), factored
out of `acquire_spectra` for statement purposes: in single mode
`(v_res - window, v_res + window)`; otherwise range mode, which raises
`ValueError` when `frequencyMin` or `frequencyMax` is `None` and yields
`(frequencyMin - window, frequencyMax + window)`. -/
def compute_crop_bounds (params : Params) (v_res : PVal) (window : ℚ) :
    Except PyErr (ℚ × ℚ) := do
  let frequencyMode := pgetD params "acquisitionType" (PVal.str "single")
  if frequencyMode.eqStr "single" then do
    let vr ← v_res.toNum
    pure (vr - window, vr + window)
  else do
    let frequency_min := pgetN params "frequencyMin"
    let frequency_max := pgetN params "frequencyMax"
    if frequency_min.isNone || frequency_max.isNone then
      throw (PyErr.valueError
        "For frequency range mode, frequencyMin and frequencyMax must be provided.")
    else do
      let fmin ← frequency_min.toNum
      let fmax ← frequency_max.toNum
      pure (fmin - window, fmax + window)

/-- The result dictionary of `acquire_spectra`: either
`{"success": False, "error": msg}` or `{"success": True, "x": …, "y": …}`. -/
inductive SynthResult
  | failure (error : String)
  | success (x : List ℚ) (y : List ℝ)

/-- `acquire_spectra` from `acquire_spectra.py` lines 13-114.  The line
catalog read with `pd.read_csv` is the external collaborator
`catalog : datafile path → (frequency, intensity) rows`; `signal_unit` and
`cavity_unit` are the standard-normal draws of the two noise injections;
the CSV/plot export (lines 99-108) is presentation-only I/O and has no
bearing on the returned value. -/
def acquire_spectra (catalog : String → List (ℚ × ℝ)) (params : Params)
    (signal_unit : List ℝ := []) (cavity_unit : List ℝ := [])
    (window : ℚ := 25) (resolution : ℚ := 1/1000) (fwhm : ℚ := 7/1000)
    (Q : ℚ := 10000) (Pmax : ℚ := 1) : Except PyErr SynthResult := do
  if !param_check params then
    return SynthResult.failure
      "One of the given parameters was invalid. Please change some settings and try again."
  let molecule := pgetN params "molecule"
  let v_res := pgetN params "vres"
  let datafile ← get_datafile molecule
  let cropBounds ← compute_crop_bounds params v_res window
  let crop_min := cropBounds.1
  let crop_max := cropBounds.2
  let lines := filter_lines (catalog datafile) window crop_min crop_max
  let individual_spectra := lines.map (fun fi =>
    (local_grid fi.1 window resolution,
     local_spectrum fi.1 fi.2 window resolution fwhm vrms))
  let fgrid := final_grid crop_min crop_max resolution
  let accumulated := accumulate fgrid individual_spectra
  let cyclesPerStep := pgetN params "numCyclesPerStep"
  let cycles ← cyclesPerStep.toNum
  let noisy := add_white_noise accumulated cycles false signal_unit
  let shaped ← apply_cavity_mode_response params fgrid noisy v_res Q Pmax cavity_unit
  pure (SynthResult.success fgrid (shaped.map (fun t => |t|)))

/-- The request dictionary with the 11 expected keys, in the order of
`valid_params`. -/
def mk_params (molecule stepSize frequencyMin frequencyMax numCyclesPerStep
    microwavePulseWidth mwBand repetitionRate molecularPulseWidth
    acquisitionType vres : PVal) : Params :=
  [("molecule", molecule), ("stepSize", stepSize),
   ("frequencyMin", frequencyMin), ("frequencyMax", frequencyMax),
   ("numCyclesPerStep", numCyclesPerStep),
   ("microwavePulseWidth", microwavePulseWidth), ("mwBand", mwBand),
   ("repetitionRate", repetitionRate),
   ("molecularPulseWidth", molecularPulseWidth),
   ("acquisitionType", acquisitionType), ("vres", vres)]

end

/-! ## The peak finder (`find_peaks`, `acquire_spectra.py` lines 116-144) -/

/-- Python `round` of a rational to an integer: round half to even. -/
def pyRoundInt (r : ℚ) : ℤ :=
  let f := ⌊r⌋
  let frac := r - (f : ℚ)
  if frac < 1/2 then f
  else if 1/2 < frac then f + 1
  else if f % 2 = 0 then f else f + 1

/-- Python `round(x, 4)`: round half to even at the fourth decimal. -/
def round4 (x : ℚ) : ℚ := (pyRoundInt (x * 10000) : ℚ) / 10000

/-- Python dict insertion `d[k] = v` on an association list with unique
keys: overwrite in place when the key exists, append otherwise. -/
def dict_insert (d : List (ℚ × ℚ)) (k v : ℚ) : List (ℚ × ℚ) :=
  if d.any (fun kv => kv.1 == k) then
    d.map (fun kv => if kv.1 == k then (k, v) else kv)
  else d ++ [(k, v)]

/-- Python dict lookup `d.get(k)`. -/
def dict_lookup (d : List (ℚ × ℚ)) (k : ℚ) : Option ℚ :=
  (d.find? (fun kv => kv.1 == k)).map (fun kv => kv.2)

/-- The result dictionary of `find_peaks`: `success` plus the `peaks`
mapping (insertion-ordered, as a Python dict is). -/
structure PeaksResult where
  success : Bool
  peaks : List (ℚ × ℚ)
deriving DecidableEq

/-- `find_peaks` from `acquire_spectra.py` lines 116-144: iterate over
`zip(x_data, y_data)` (which stops at the shorter list) and record
`peaks[round(x, 4)] = round(y, 4)` for every pair with `y >= threshold`.
Every operation in the `try` body is total on numeric list inputs, so the
`except` branch is unreachable and `success` is always `True`. -/
def find_peaks (x_data y_data : List ℚ) (threshold : ℚ := 0) : PeaksResult :=
  { success := true
    peaks := (x_data.zip y_data).foldl
      (fun d xy =>
        if threshold ≤ xy.2 then dict_insert d (round4 xy.1) (round4 xy.2) else d)
      [] }

/-- Reference reading of the peaks mapping: the recorded `y` for key `k`
is the rounded `y` of the *last* pair `(x, y)` with `y >= threshold` and
`round(x, 4) = k` (later collisions overwrite earlier ones). -/
def last_peak (x_data y_data : List ℚ) (threshold k : ℚ) : Option ℚ :=
  (((x_data.zip y_data).filter
      (fun xy => decide (threshold ≤ xy.2) && (round4 xy.1 == k))).getLast?).map
    (fun xy => round4 xy.2)

/-! ## General lemmas about the embedded operations -/

theorem length_scale (c : ℝ) (xs : List ℝ) : (scale c xs).length = xs.length := by
  simp [scale]

theorem length_addv (xs ys : List ℝ) :
    (addv xs ys).length = min xs.length ys.length := by
  simp [addv]

theorem length_lorentzian_profile (grid : List ℚ) (center fwhm : ℚ) :
    (lorentzian_profile grid center fwhm).length = grid.length := by
  simp [lorentzian_profile]

theorem length_local_spectrum (f : ℚ) (I : ℝ) (window resolution fwhm vel : ℚ) :
    (local_spectrum f I window resolution fwhm vel).length =
      (local_grid f window resolution).length := by
  simp [local_spectrum, addv, scale, lorentzian_profile]

theorem length_arange (start stop step : ℚ) :
    (arange start stop step).length = Int.toNat ⌈(stop - start) / step⌉ := by
  rw [arange, List.length_map, List.length_range]

theorem getD_arange (start stop step : ℚ) (i : ℕ)
    (hi : i < (arange start stop step).length) :
    (arange start stop step).getD i 0 = start + step * (i : ℚ) := by
  rw [List.getD_eq_getElem _ _ hi]
  simp only [arange, List.getElem_map, List.getElem_range]

/-- Points of `arange` with a positive step lie in the half-open interval
`[start, stop)`. -/
theorem arange_mem_bounds (start stop step : ℚ) (hstep : 0 < step) (i : ℕ)
    (hi : i < (arange start stop step).length) :
    start ≤ (arange start stop step).getD i 0 ∧
      (arange start stop step).getD i 0 < stop := by
  rw [getD_arange _ _ _ _ hi]
  rw [length_arange] at hi
  have hz : (i : ℤ) < ⌈(stop - start) / step⌉ := by omega
  constructor
  · have : (0 : ℚ) ≤ step * (i : ℚ) := by positivity
    linarith
  · have hq : (i : ℚ) < (stop - start) / step := by
      exact_mod_cast Int.lt_ceil.mp hz
    have := (lt_div_iff₀ hstep).mp hq
    linarith

/-! ## C1 — the local grid and the Doppler-split Lorentzian local spectrum -/

/-- **C1**: for every retained spectral line `(f, I)` and every point `v` of
its local grid, the local spectrum value equals
`I*L(v; f+s, fwhm) + I*L(v; f-s, fwhm)`, where
`s = (f / 299792458) * carrierVelocity` and
`L(v; c, fwhm) = (1/pi)*((fwhm/2) / ((v-c)^2 + (fwhm/2)^2))`; the local grid
spans the half-open interval `[f-window, f+window)` at fixed step
`resolution`. -/
theorem C1_local_spectrum (f : ℚ) (I : ℝ) (window resolution fwhm vel : ℚ)
    (i : ℕ) (hres : 0 < resolution)
    (hi : i < (local_grid f window resolution).length) :
    (local_grid f window resolution).getD i 0 =
        f - window + resolution * (i : ℚ) ∧
    f - window ≤ (local_grid f window resolution).getD i 0 ∧
    (local_grid f window resolution).getD i 0 < f + window ∧
    (local_spectrum f I window resolution fwhm vel).getD i 0 =
      I * ((1 / Real.pi) * (((fwhm : ℝ) / 2) /
          (((((local_grid f window resolution).getD i 0 : ℚ) : ℝ) -
              ((f : ℝ) + ((f : ℝ) / 299792458) * (vel : ℝ))) ^ 2 +
            ((fwhm : ℝ) / 2) ^ 2))) +
      I * ((1 / Real.pi) * (((fwhm : ℝ) / 2) /
          (((((local_grid f window resolution).getD i 0 : ℚ) : ℝ) -
              ((f : ℝ) - ((f : ℝ) / 299792458) * (vel : ℝ))) ^ 2 +
            ((fwhm : ℝ) / 2) ^ 2))) := by
  obtain ⟨hlow, hhigh⟩ :=
    arange_mem_bounds (f - window) (f + window) resolution hres i hi
  refine ⟨getD_arange _ _ _ _ hi, hlow, hhigh, ?_⟩
  have hsl : i < (local_spectrum f I window resolution fwhm vel).length := by
    rw [length_local_spectrum]; exact hi
  rw [List.getD_eq_getElem _ _ hsl, List.getD_eq_getElem _ _ hi]
  simp only [local_spectrum, local_grid, addv, scale, lorentzian_profile,
    lorentzian_at, List.getElem_zipWith, List.getElem_map]
  push_cast [c_SI]
  ring

/-- Witness for C1 at the concrete line `(f, I) = (100, 1)` with
`window = 5`, `resolution = 1`, grid index `2`: the hypotheses hold there
and the theorem pins the grid point to `97`, inside `[95, 105)`. -/
theorem C1_local_spectrum_witness :
    (0 : ℚ) < 1 ∧ 2 < (local_grid 100 5 1).length ∧
      (local_grid 100 5 1).getD 2 0 = 97 := by
  have h10 : ⌈((100 + 5 : ℚ) - (100 - 5)) / 1⌉ = 10 := by
    rw [Int.ceil_eq_iff]; norm_num
  have hlen : (local_grid 100 5 1).length = 10 := by
    rw [local_grid, length_arange, h10]; rfl
  have hres : (0 : ℚ) < 1 := by norm_num
  have hi : 2 < (local_grid 100 5 1).length := by rw [hlen]; norm_num
  have h := C1_local_spectrum 100 1 5 1 1 0 2 hres hi
  exact ⟨hres, hi, by rw [h.1]; norm_num⟩

/-! ## C7 — sample counts of the frequency grids -/

/-- **C7 counterexample**: the claim says every grid holds
`floor((stop-start)/resolution)` samples.  The local grid of a line at
`f = 0` with `window = 5/2` and `resolution = 2` spans `[-5/2, 5/2)` and
holds `ceil(5/2) = 3` samples, not `floor(5/2) = 2`. -/
theorem C7_counterexample :
    (local_grid 0 (5/2) 2).length ≠
      Int.toNat ⌊((0 + 5/2 : ℚ) - (0 - 5/2)) / 2⌋ := by
  have hc : ⌈((0 + 5/2 : ℚ) - (0 - 5/2)) / 2⌉ = 3 := by
    rw [Int.ceil_eq_iff]; norm_num
  have hf : ⌊((0 + 5/2 : ℚ) - (0 - 5/2)) / 2⌋ = 2 := by
    rw [Int.floor_eq_iff]; norm_num
  rw [local_grid, length_arange, hc, hf]
  decide

/-- **C7 (amended)**: every grid the engine builds from
`(start, stop, resolution)` with `start < stop` and `resolution > 0` — the
per-line local grids and the global output grid are both `arange` grids —
contains exactly `ceil((stop-start)/resolution)` samples: every sample
`start + resolution*k` with `k < count` lies below `stop`, and the next
one would reach `stop`. -/
theorem C7_grid_count (f window crop_min crop_max step : ℚ)
    (hstep : 0 < step) (hcrop : crop_min < crop_max) :
    (local_grid f window step).length =
        Int.toNat ⌈((f + window) - (f - window)) / step⌉ ∧
    (final_grid crop_min crop_max step).length =
        Int.toNat ⌈(crop_max - crop_min) / step⌉ ∧
    (∀ i, i < (final_grid crop_min crop_max step).length →
        crop_min + step * (i : ℚ) < crop_max) ∧
    crop_max ≤
        crop_min + step * ((final_grid crop_min crop_max step).length : ℚ) := by
  refine ⟨by rw [local_grid, length_arange], by rw [final_grid, length_arange],
    ?_, ?_⟩
  · intro i hi
    have h := arange_mem_bounds crop_min crop_max step hstep i hi
    rw [getD_arange _ _ _ _ hi] at h
    exact h.2
  · rw [final_grid, length_arange]
    have hx : 0 < (crop_max - crop_min) / step := div_pos (by linarith) hstep
    have hge : (0 : ℤ) ≤ ⌈(crop_max - crop_min) / step⌉ :=
      le_of_lt (Int.ceil_pos.mpr hx)
    have hle := Int.le_ceil ((crop_max - crop_min) / step)
    rw [← Int.toNat_of_nonneg hge] at hle
    have hle' : (crop_max - crop_min) / step ≤
        ((Int.toNat ⌈(crop_max - crop_min) / step⌉ : ℕ) : ℚ) := by
      exact_mod_cast hle
    have := (div_le_iff₀ hstep).mp hle'
    linarith

/-- Witness for C7 at `f = 100`, `window = 5`, crop `[0, 10]`, step `1`. -/
theorem C7_grid_count_witness :
    (0 : ℚ) < 1 ∧ (0 : ℚ) < 10 ∧
      (10 : ℚ) ≤ 0 + 1 * ((final_grid 0 10 1).length : ℚ) :=
  ⟨by norm_num, by norm_num,
    (C7_grid_count 100 5 0 10 1 (by norm_num) (by norm_num)).2.2.2⟩

/-! ## C8 — Scenario A -/

/-- The Scenario A local grid as the code computes it:
`np.arange(95, 105, 1)`, ten points. -/
theorem local_grid_scenarioA :
    local_grid 100 5 1 = [95, 96, 97, 98, 99, 100, 101, 102, 103, 104] := by
  have h10 : ⌈((100 + 5 : ℚ) - (100 - 5)) / 1⌉ = 10 := by
    rw [Int.ceil_eq_iff]; norm_num
  rw [local_grid, arange, h10]
  norm_num [show Int.toNat 10 = 10 from rfl,
    show List.range 10 = [0, 1, 2, 3, 4, 5, 6, 7, 8, 9] from rfl]

/-- The Scenario A local spectrum, evaluated at the centre frequency
`100` (grid index 5): the two split components coincide at zero carrier
velocity, so the value is `2 * (2/pi) = 4/pi`. -/
theorem local_spectrum_scenarioA_center :
    (local_spectrum 100 1 5 1 1 0).getD 5 0 = 4 / Real.pi := by
  have hi : 5 < (local_grid 100 5 1).length := by
    rw [local_grid_scenarioA]; decide
  have hsl : 5 < (local_spectrum 100 1 5 1 1 0).length := by
    rw [length_local_spectrum]; exact hi
  rw [List.getD_eq_getElem _ _ hsl]
  simp only [local_spectrum, local_grid, addv, scale, lorentzian_profile,
    lorentzian_at, List.getElem_zipWith, List.getElem_map, arange,
    List.getElem_range]
  push_cast [c_SI]
  have hπ := Real.pi_ne_zero
  norm_num
  field_simp
  ring

/-- **C8 counterexample**: with line `(100, 1)`, `window = 5`,
`resolution = 1`, `fwhm = 1`, carrier velocity `0`, the local grid has 10
points (not the claimed 5), and the local spectrum value at the centre
grid point `100` is not the claimed `2/pi` (both split components coincide
there, so the value doubles). -/
theorem C8_counterexample :
    (local_grid 100 5 1).length ≠ 5 ∧
    (local_spectrum 100 1 5 1 1 0).getD 5 0 ≠ 2 / Real.pi := by
  refine ⟨by rw [local_grid_scenarioA]; decide, ?_⟩
  rw [local_spectrum_scenarioA_center]
  intro heq
  rw [div_eq_div_iff Real.pi_ne_zero Real.pi_ne_zero] at heq
  have := Real.pi_pos
  nlinarith

/-- **C8 (amended)**: for the input line list `[(100, 1)]` with
`window = 5`, `resolution = 1`, `fwhm = 1` and carrier velocity `0`, the
local grid is the ten-point half-open grid `[95, 96, ..., 104]`, and the
local spectrum value at the centre frequency `100` (a grid point, index 5)
is `4/pi ≈ 1.2732`: the two coincident split components contribute `2/pi`
each. -/
theorem C8_scenarioA :
    local_grid 100 5 1 = [95, 96, 97, 98, 99, 100, 101, 102, 103, 104] ∧
    (local_spectrum 100 1 5 1 1 0).getD 5 0 = 4 / Real.pi :=
  ⟨local_grid_scenarioA, local_spectrum_scenarioA_center⟩

/-! ## C3 — accumulation onto the global grid with zero padding -/

/-- Walking `interp_from` with a query strictly right of the current and
of all remaining sample points ends in the `right=0` branch. -/
theorem interp_from_right_zero (v x1 : ℚ) (y1 : ℝ) (pts : List (ℚ × ℝ))
    (hx1 : x1 < v) (h : ∀ p ∈ pts, p.1 < v) :
    interp_from v x1 y1 pts = 0 := by
  induction pts generalizing x1 y1 with
  | nil => simp [interp_from, hx1]
  | cons p rest ih =>
    obtain ⟨x2, y2⟩ := p
    have hx2 : x2 < v := h (x2, y2) (List.mem_cons_self _ _)
    simp only [interp_from]
    rw [if_neg (not_le.mpr hx2)]
    exact ih x2 y2 hx2 (fun q hq => h q (List.mem_cons_of_mem _ hq))

/-- In a `≤`-sorted nonempty list every element is at most the last. -/
theorem sorted_le_getLast (xp : List ℚ) (hne : xp ≠ [])
    (hs : xp.Sorted (fun a b => a ≤ b)) (x : ℚ) (hx : x ∈ xp) :
    x ≤ xp.getLast hne := by
  induction xp with
  | nil => exact absurd rfl hne
  | cons a rest ih =>
    rcases eq_or_ne rest [] with hr | hr
    · subst hr
      simp only [List.mem_singleton] at hx
      subst hx
      simp [List.getLast]
    · rw [List.getLast_cons hr]
      rcases List.mem_cons.mp hx with rfl | hx'
      · exact le_trans
          ((List.sorted_cons.mp hs).1 _ (List.getLast_mem hr))
          (le_refl _)
      · exact ih hr (List.sorted_cons.mp hs).2 hx'

/-- **C3**: the global spectrum starts as all zeros on the grid built from
`(crop_min, crop_max, resolution)`; each local spectrum increments it by
its linear interpolation onto that grid; and the interpolated value is
exactly `0` at every query point strictly outside the local grid's domain
(no extrapolation), so a line contributes nothing outside its local
support. -/
theorem C3_accumulate_zero_padding (crop_min crop_max resolution : ℚ)
    (spectra : List (List ℚ × List ℝ)) (xp : List ℚ) (fp : List ℝ) (v : ℚ) :
    accumulate (final_grid crop_min crop_max resolution) [] =
      List.replicate (final_grid crop_min crop_max resolution).length 0 ∧
    accumulate (final_grid crop_min crop_max resolution) (spectra ++ [(xp, fp)]) =
      addv (accumulate (final_grid crop_min crop_max resolution) spectra)
        (np_interp (final_grid crop_min crop_max resolution) xp fp) ∧
    (∀ hne : xp ≠ [], xp.Sorted (fun a b => a ≤ b) →
      (v < xp.head hne ∨ xp.getLast hne < v) →
      interp v (xp.zip fp) = 0) := by
  refine ⟨rfl, by rw [accumulate, accumulate, List.foldl_append]; rfl, ?_⟩
  intro hne hs hout
  rcases hz : xp.zip fp with _ | ⟨⟨x1, y1⟩, rest⟩
  · simp [interp]
  · have hx1 : x1 ∈ xp := by
      have : (x1, y1) ∈ xp.zip fp := by rw [hz]; exact List.mem_cons_self _ _
      exact (List.of_mem_zip this).1
    rcases hout with hlt | hgt
    · have hhead : xp.head hne ≤ x1 := by
        rcases xp with _ | ⟨a, l⟩
        · exact absurd rfl hne
        · rcases List.mem_cons.mp hx1 with rfl | hx'
          · exact le_refl _
          · exact (List.sorted_cons.mp hs).1 _ hx'
      simp only [interp]
      rw [if_pos (lt_of_lt_of_le hlt hhead)]
    · have hall : ∀ p ∈ xp.zip fp, p.1 < v := by
        intro p hp
        exact lt_of_le_of_lt
          (sorted_le_getLast xp hne hs p.1 (List.of_mem_zip hp).1) hgt
      have hx1v : x1 < v := hall (x1, y1) (by rw [hz]; exact List.mem_cons_self _ _)
      simp only [interp]
      rw [if_neg (not_lt.mpr (le_of_lt hx1v))]
      exact interp_from_right_zero v x1 y1 rest hx1v
        (fun q hq => hall q (by rw [hz]; exact List.mem_cons_of_mem _ hq))

/-! ## Reduction lemmas for the `Except` control flow -/

@[simp] theorem except_bind_ok {ε α β : Type} (a : α) (f : α → Except ε β) :
    (Except.ok a : Except ε α) >>= f = f a := rfl

@[simp] theorem except_bind_error {ε α β : Type} (e : ε) (f : α → Except ε β) :
    (Except.error e : Except ε α) >>= f = Except.error e := rfl

@[simp] theorem except_pure {ε α : Type} (a : α) :
    (pure a : Except ε α) = Except.ok a := rfl

@[simp] theorem except_throw {ε α : Type} (e : ε) :
    (throw e : Except ε α) = Except.error e := rfl

/-! ## C4 — crop bounds and line selection -/

/-- **C4**: the crop bounds are `vres ∓ window` in single mode and
`(frequencyMin - window, frequencyMax + window)` in range mode, and the
retained lines are exactly those with `frequency + window ≥ cropMin` and
`frequency - window ≤ cropMax`. -/
theorem C4_line_selection (params : Params) (vr : PVal) (v fmin fmax window
    crop_min crop_max : ℚ) (lines : List (ℚ × ℝ)) (fi : ℚ × ℝ) :
    ((pgetD params "acquisitionType" (PVal.str "single")).eqStr "single" = true →
      compute_crop_bounds params (PVal.num v) window =
        .ok (v - window, v + window)) ∧
    ((pgetD params "acquisitionType" (PVal.str "single")).eqStr "single" = false →
      pgetN params "frequencyMin" = PVal.num fmin →
      pgetN params "frequencyMax" = PVal.num fmax →
      compute_crop_bounds params vr window =
        .ok (fmin - window, fmax + window)) ∧
    (fi ∈ filter_lines lines window crop_min crop_max ↔
      fi ∈ lines ∧ crop_min ≤ fi.1 + window ∧ fi.1 - window ≤ crop_max) := by
  refine ⟨?_, ?_, ?_⟩
  · intro hmode
    simp [compute_crop_bounds, hmode, PVal.toNum]
  · intro hmode hmin hmax
    simp [compute_crop_bounds, hmode, hmin, hmax, PVal.toNum, PVal.isNone]
  · simp [filter_lines, List.mem_filter, and_assoc]

/-- Voluntary concrete check of C4: a single-mode request centred at
`vres = 8000` with `window = 25` crops to `[7975, 8025]`, and a line at
`7949` is discarded while one at `7951` is kept. -/
theorem C4_line_selection_witness :
    compute_crop_bounds [("acquisitionType", PVal.str "single")]
        (PVal.num 8000) 25 = .ok (8000 - 25, 8000 + 25) ∧
    ((7951, (1 : ℝ)) ∈
      filter_lines [((7949 : ℚ), (1 : ℝ)), (7951, 1)] 25 7975 8025 ∧
     ((7949 : ℚ), (1 : ℝ)) ∉
      filter_lines [((7949 : ℚ), (1 : ℝ)), (7951, 1)] 25 7975 8025) := by
  refine ⟨(C4_line_selection [("acquisitionType", PVal.str "single")]
      (PVal.num 8000) 8000 0 0 25 7975 8025 [] (0, 0)).1 rfl, ?_, ?_⟩
  · rw [(C4_line_selection [("acquisitionType", PVal.str "single")]
      (PVal.num 8000) 8000 0 0 25 7975 8025
      [((7949 : ℚ), (1 : ℝ)), (7951, 1)] (7951, 1)).2.2]
    norm_num
  · rw [(C4_line_selection [("acquisitionType", PVal.str "single")]
      (PVal.num 8000) 8000 0 0 25 7975 8025
      [((7949 : ℚ), (1 : ℝ)), (7951, 1)] (7949, 1)).2.2]
    norm_num

/-! ## C10 — `find_peaks` on unequal-length inputs -/

/-- **C10**: `find_peaks` with inputs of unequal length does not return an
error: it succeeds, and its result is the same as on the inputs truncated
to the first `min(len(x_data), len(y_data))` pairs. -/
theorem C10_find_peaks_truncates (x_data y_data : List ℚ) (threshold : ℚ) :
    (find_peaks x_data y_data threshold).success = true ∧
    find_peaks x_data y_data threshold =
      find_peaks (x_data.take (min x_data.length y_data.length))
        (y_data.take (min x_data.length y_data.length)) threshold := by
  refine ⟨rfl, ?_⟩
  have hz : ∀ (x : List ℚ) (y : List ℚ),
      (x.take (min x.length y.length)).zip (y.take (min x.length y.length)) =
        x.zip y := by
    intro x
    induction x with
    | nil => intro y; simp
    | cons a xs ih =>
      intro y
      cases y with
      | nil => simp
      | cons b ys =>
        simp only [List.length_cons]
        have hm : min (xs.length + 1) (ys.length + 1) =
            min xs.length ys.length + 1 := by omega
        rw [hm, List.take_succ_cons, List.take_succ_cons,
          List.zip_cons_cons, List.zip_cons_cons, ih ys]
  rw [find_peaks, find_peaks, hz]

/-- Voluntary concrete check of C10: three x-values against one y-value. -/
theorem C10_find_peaks_truncates_witness :
    (find_peaks [1, 2, 3] [5] 0).success = true ∧
    find_peaks [1, 2, 3] [5] 0 = find_peaks [1] [5] 0 :=
  C10_find_peaks_truncates [1, 2, 3] [5] 0

/-! ## C9 — `find_peaks` as a mapping -/

theorem dict_lookup_cons (x : ℚ × ℚ) (rest : List (ℚ × ℚ)) (q : ℚ) :
    dict_lookup (x :: rest) q =
      if x.1 == q then some x.2 else dict_lookup rest q := by
  rcases h : x.1 == q with _ | _
  · simp [dict_lookup, List.find?, h]
  · simp [dict_lookup, List.find?, h]

theorem dict_lookup_map_update_ne (d : List (ℚ × ℚ)) (k v q : ℚ) (hq : q ≠ k) :
    dict_lookup (d.map (fun kv => if kv.1 == k then (k, v) else kv)) q =
      dict_lookup d q := by
  induction d with
  | nil => rfl
  | cons p rest ih =>
    obtain ⟨a, b⟩ := p
    by_cases ha : a = k
    · subst ha
      simp only [List.map_cons, beq_self_eq_true, if_true]
      rw [dict_lookup_cons, dict_lookup_cons]
      simpa [Ne.symm hq] using ih
    · have ha' : (a == k) = false := by simp only [beq_eq_false_iff_ne]; exact ha
      simp only [List.map_cons, ha', Bool.false_eq_true, if_false]
      rw [dict_lookup_cons, dict_lookup_cons, ih]

theorem dict_lookup_map_update (d : List (ℚ × ℚ)) (k v : ℚ)
    (hany : d.any (fun kv => kv.1 == k) = true) :
    dict_lookup (d.map (fun kv => if kv.1 == k then (k, v) else kv)) k =
      some v := by
  induction d with
  | nil => simp at hany
  | cons p rest ih =>
    obtain ⟨a, b⟩ := p
    by_cases ha : a = k
    · subst ha
      simp only [List.map_cons, beq_self_eq_true, if_true]
      rw [dict_lookup_cons]
      simp
    · have ha' : (a == k) = false := by simp only [beq_eq_false_iff_ne]; exact ha
      simp only [List.any_cons, ha', Bool.false_or] at hany
      simp only [List.map_cons, ha', Bool.false_eq_true, if_false]
      rw [dict_lookup_cons]
      simpa [ha] using ih hany

theorem dict_lookup_append_single (d : List (ℚ × ℚ)) (k v q : ℚ)
    (hnone : d.any (fun kv => kv.1 == k) = false) :
    dict_lookup (d ++ [(k, v)]) q =
      if q = k then some v else dict_lookup d q := by
  induction d with
  | nil =>
    rw [List.nil_append, dict_lookup_cons]
    by_cases hqk : q = k
    · subst hqk; simp
    · have h1 : (k == q) = false := by
        simp only [beq_eq_false_iff_ne]; exact fun h => hqk h.symm
      simp [h1, hqk, dict_lookup]
  | cons p rest ih =>
    obtain ⟨a, b⟩ := p
    simp only [List.any_cons, Bool.or_eq_false_iff] at hnone
    obtain ⟨hak, hrest⟩ := hnone
    rw [List.cons_append, dict_lookup_cons, dict_lookup_cons]
    by_cases haq : a = q
    · subst haq
      have hqk : ¬(a = k) := by
        intro h; rw [h] at hak; simp at hak
      simp [hqk]
    · have haq' : (a == q) = false := by
        simp only [beq_eq_false_iff_ne]; exact haq
      rw [ih hrest, show ((a, b) : ℚ × ℚ).1 = a from rfl, haq']
      simp only [Bool.false_eq_true, if_false]

/-- Lookup after a Python dict insertion. -/
theorem dict_lookup_insert (d : List (ℚ × ℚ)) (k v q : ℚ) :
    dict_lookup (dict_insert d k v) q =
      if q = k then some v else dict_lookup d q := by
  rcases hmem : d.any (fun kv => kv.1 == k) with _ | _
  · rw [dict_insert, hmem]
    simp only [Bool.false_eq_true, if_false]
    exact dict_lookup_append_single d k v q hmem
  · rw [dict_insert, hmem]
    simp only [if_true]
    by_cases hqk : q = k
    · subst hqk
      rw [if_pos rfl]
      exact dict_lookup_map_update d q v hmem
    · rw [if_neg hqk]
      exact dict_lookup_map_update_ne d k v q hqk

theorem getLast?_cons_eq {α : Type} (a : α) (l : List α) :
    (a :: l).getLast? = some (l.getLast?.getD a) := by
  induction l generalizing a with
  | nil => rfl
  | cons b m ih =>
    rw [List.getLast?_cons_cons, ih b]
    simp

/-- The accumulated peaks dictionary, read back: the recorded value for a
key is the rounded `y` of the last qualifying pair whose rounded `x` is
that key; pairs below threshold change nothing. -/
theorem find_peaks_fold_lookup (l : List (ℚ × ℚ)) (t : ℚ) (d : List (ℚ × ℚ))
    (k : ℚ) :
    dict_lookup (l.foldl
      (fun d xy =>
        if t ≤ xy.2 then dict_insert d (round4 xy.1) (round4 xy.2) else d)
      d) k =
    (((l.filter (fun xy => decide (t ≤ xy.2) && (round4 xy.1 == k))).getLast?).map
        (fun xy => (some (round4 xy.2) : Option ℚ))).getD (dict_lookup d k) := by
  induction l generalizing d with
  | nil => rfl
  | cons xy rest ih =>
    obtain ⟨x, y⟩ := xy
    by_cases hy : t ≤ y
    · by_cases hk : round4 x = k
      · have hk' : (round4 x == k) = true := beq_iff_eq.mpr hk
        simp only [List.foldl_cons, List.filter_cons, decide_eq_true hy, hk',
          Bool.and_self, if_true, if_pos hy, ih, getLast?_cons_eq]
        rcases hrest : (rest.filter
            (fun xy => decide (t ≤ xy.2) && (round4 xy.1 == k))).getLast? with
          _ | ⟨z⟩
        · simp [hrest, dict_lookup_insert, hk]
        · simp [hrest]
      · have hk' : (round4 x == k) = false := by
          simp only [beq_eq_false_iff_ne]; exact hk
        simp only [List.foldl_cons, List.filter_cons, decide_eq_true hy, hk',
          Bool.and_false, if_true, Bool.false_eq_true, if_false, if_pos hy, ih]
        rw [dict_lookup_insert, if_neg (fun h => hk h.symm)]
    · have hy' : decide (t ≤ y) = false := decide_eq_false hy
      simp only [List.foldl_cons, List.filter_cons, hy', Bool.false_and,
        Bool.false_eq_true, if_false, if_neg hy, ih]

/-- **C9 (amended)**: `find_peaks` always returns success, and its peaks
mapping sends each key `k` to the rounded `y` of the *last* pair `(x, y)`
(over the zipped index range) with `y >= threshold` and `round(x,4) = k` —
when several qualifying x-values round to the same key, the later one
silently overwrites the earlier (the collision policy the spec documents);
when the qualifying keys are distinct this is exactly the claimed mapping,
and `findPeaks([1,2,3],[0.1,0.6,0.2], 0.5)` yields `{2: 0.6}` (the
witness). -/
theorem C9_find_peaks_lookup (x_data y_data : List ℚ) (threshold k : ℚ) :
    (find_peaks x_data y_data threshold).success = true ∧
    dict_lookup (find_peaks x_data y_data threshold).peaks k =
      last_peak x_data y_data threshold k := by
  refine ⟨rfl, ?_⟩
  rw [show (find_peaks x_data y_data threshold).peaks =
      (x_data.zip y_data).foldl
        (fun d xy =>
          if threshold ≤ xy.2 then dict_insert d (round4 xy.1) (round4 xy.2)
          else d) [] from rfl,
    find_peaks_fold_lookup, last_peak]
  generalize ((x_data.zip y_data).filter
      (fun xy => decide (threshold ≤ xy.2) && (round4 xy.1 == k))).getLast? = o
  cases o with
  | none => simp [dict_lookup]
  | some z => simp

/-- Evaluating Python `round(x, 4)` when the scaled value sits strictly
below the halfway point above its floor `n`. -/
theorem round4_eq_of (x : ℚ) (n : ℤ) (h1 : (n : ℚ) ≤ x * 10000)
    (h2 : x * 10000 - (n : ℚ) < 1/2) : round4 x = (n : ℚ) / 10000 := by
  have hf : ⌊x * 10000⌋ = n := Int.floor_eq_iff.mpr ⟨h1, by linarith⟩
  rw [round4, pyRoundInt]
  simp only [hf]
  rw [if_pos (by linarith)]

theorem round4_one : round4 1 = 1 := by
  rw [round4_eq_of 1 10000 (by norm_num) (by norm_num)]; norm_num

theorem round4_two : round4 2 = 2 := by
  rw [round4_eq_of 2 20000 (by norm_num) (by norm_num)]; norm_num

theorem round4_three_fifths : round4 (3/5) = 3/5 := by
  rw [round4_eq_of (3/5) 6000 (by norm_num) (by norm_num)]; norm_num

theorem round4_collide_one : round4 (100001/100000) = 1 := by
  rw [round4_eq_of (100001/100000) 10000 (by norm_num) (by norm_num)]; norm_num

theorem round4_collide_two : round4 (50001/50000) = 1 := by
  rw [round4_eq_of (50001/50000) 10000 (by norm_num) (by norm_num)]; norm_num

/-- **C9 counterexample**: `x = [1.00001, 1.00002]`, `y = [1, 2]`,
`threshold = 0`.  Both indices qualify and both x-values round to the key
`1.0`, so the claimed mapping would contain `1.0 -> 1.0` for index 0; the
code returns `{1.0: 2.0}` — the pair `(1, 1)` of index 0 is not in the
mapping. -/
theorem C9_counterexample :
    (find_peaks [100001/100000, 100002/100000] [1, 2] 0).peaks = [(1, 2)] ∧
    ((1 : ℚ), (1 : ℚ)) ∉
      (find_peaks [100001/100000, 100002/100000] [1, 2] 0).peaks := by
  have h : (find_peaks [100001/100000, 100002/100000] [1, 2] 0).peaks
      = [(1, 2)] := by
    rw [find_peaks]
    norm_num [dict_insert, round4_collide_one, round4_collide_two, round4_one,
      round4_two]
  refine ⟨h, ?_⟩
  rw [h]
  decide

/-- Scenario B of the spec, proved concretely:
`findPeaks([1,2,3],[0.1,0.6,0.2], threshold=0.5)` yields `{2: 0.6}`. -/
theorem C9_find_peaks_witness :
    find_peaks [1, 2, 3] [1/10, 6/10, 2/10] (1/2) = ⟨true, [(2, 3/5)]⟩ := by
  rw [find_peaks]
  norm_num [dict_insert, round4_two, round4_three_fifths]

/-! ## Reduction of `acquire_spectra` on well-formed requests -/

theorem param_check_mk_params (v1 v2 v3 v4 v5 v6 v7 v8 v9 v10 v11 : PVal)
    (h1 : v1.isNone = false) (h2 : v2.isNone = false) (h3 : v3.isNone = false)
    (h4 : v4.isNone = false) (h5 : v5.isNone = false) (h6 : v6.isNone = false)
    (h7 : v7.isNone = false) (h8 : v8.isNone = false) (h9 : v9.isNone = false)
    (h10 : v10.isNone = false) (h11 : v11.isNone = false) :
    param_check (mk_params v1 v2 v3 v4 v5 v6 v7 v8 v9 v10 v11) = true := by
  simp [param_check, mk_params, valid_params, h1, h2, h3, h4, h5, h6, h7, h8,
    h9, h10, h11]

theorem pgetN_mk_params_molecule (v1 v2 v3 v4 v5 v6 v7 v8 v9 v10 v11 : PVal) :
    pgetN (mk_params v1 v2 v3 v4 v5 v6 v7 v8 v9 v10 v11) "molecule" = v1 := rfl

theorem pgetN_mk_params_vres (v1 v2 v3 v4 v5 v6 v7 v8 v9 v10 v11 : PVal) :
    pgetN (mk_params v1 v2 v3 v4 v5 v6 v7 v8 v9 v10 v11) "vres" = v11 := rfl

theorem pgetN_mk_params_cycles (v1 v2 v3 v4 v5 v6 v7 v8 v9 v10 v11 : PVal) :
    pgetN (mk_params v1 v2 v3 v4 v5 v6 v7 v8 v9 v10 v11) "numCyclesPerStep" =
      v5 := rfl

theorem pgetN_mk_params_fmin (v1 v2 v3 v4 v5 v6 v7 v8 v9 v10 v11 : PVal) :
    pgetN (mk_params v1 v2 v3 v4 v5 v6 v7 v8 v9 v10 v11) "frequencyMin" =
      v3 := rfl

theorem pgetN_mk_params_fmax (v1 v2 v3 v4 v5 v6 v7 v8 v9 v10 v11 : PVal) :
    pgetN (mk_params v1 v2 v3 v4 v5 v6 v7 v8 v9 v10 v11) "frequencyMax" =
      v4 := rfl

theorem pgetN_mk_params_stepSize (v1 v2 v3 v4 v5 v6 v7 v8 v9 v10 v11 : PVal) :
    pgetN (mk_params v1 v2 v3 v4 v5 v6 v7 v8 v9 v10 v11) "stepSize" = v2 := rfl

theorem pgetD_mk_params_mode (v1 v2 v3 v4 v5 v6 v7 v8 v9 v10 v11 d : PVal) :
    pgetD (mk_params v1 v2 v3 v4 v5 v6 v7 v8 v9 v10 v11) "acquisitionType" d =
      v10 := rfl

theorem pgetD_mk_params_cycles (v1 v2 v3 v4 v5 v6 v7 v8 v9 v10 v11 d : PVal) :
    pgetD (mk_params v1 v2 v3 v4 v5 v6 v7 v8 v9 v10 v11) "numCyclesPerStep" d =
      v5 := rfl

/-- Full reduction of `acquire_spectra` on a well-formed single-mode
request: the returned `x` is the global grid over
`[vres - window, vres + window)` and the returned `y` is the elementwise
absolute value of (noise-injected accumulated spectrum) times
(noise-perturbed single-mode cavity response). -/
theorem acquire_spectra_single (catalog : String → List (ℚ × ℝ))
    (mol datafile : String)
    (hmol : get_datafile (PVal.str mol) = .ok datafile)
    (st fr1 fr2 mwp mwb rep mpw vres cycles : ℚ)
    (su cu : List ℝ) (window resolution fwhm Q Pmax : ℚ) :
    acquire_spectra catalog
      (mk_params (PVal.str mol) (PVal.num st) (PVal.num fr1) (PVal.num fr2)
        (PVal.num cycles) (PVal.num mwp) (PVal.num mwb) (PVal.num rep)
        (PVal.num mpw) (PVal.str "single") (PVal.num vres))
      su cu window resolution fwhm Q Pmax =
    Except.ok (SynthResult.success
      (final_grid (vres - window) (vres + window) resolution)
      ((mulv
        (add_white_noise
          (accumulate (final_grid (vres - window) (vres + window) resolution)
            ((filter_lines (catalog datafile) window (vres - window)
                (vres + window)).map (fun fi =>
              (local_grid fi.1 window resolution,
               local_spectrum fi.1 fi.2 window resolution fwhm vrms))))
          cycles false su)
        (add_white_noise
          (cavity_lorentzian
            (final_grid (vres - window) (vres + window) resolution)
            vres Q Pmax)
          cycles true cu)).map (fun t => |t|))) := by
  have hpc := param_check_mk_params (PVal.str mol) (PVal.num st)
    (PVal.num fr1) (PVal.num fr2) (PVal.num cycles) (PVal.num mwp)
    (PVal.num mwb) (PVal.num rep) (PVal.num mpw) (PVal.str "single")
    (PVal.num vres) rfl rfl rfl rfl rfl rfl rfl rfl rfl rfl rfl
  simp only [acquire_spectra, hpc, Bool.not_true, Bool.false_eq_true,
    if_false, pgetN_mk_params_molecule, pgetN_mk_params_vres,
    pgetN_mk_params_cycles, pgetD_mk_params_mode, pgetD_mk_params_cycles,
    hmol, except_bind_ok, except_pure, compute_crop_bounds,
    apply_cavity_mode_response, PVal.eqStr, PVal.toNum]
  simp

/-- Full reduction of `acquire_spectra` on a well-formed range-mode
request: crop bounds `[frequencyMin - window, frequencyMax + window]`, and
the cavity response is the sum of one Lorentzian per centre in
`arange(frequencyMin, frequencyMax + stepSize, stepSize)`. -/
theorem acquire_spectra_range (catalog : String → List (ℚ × ℝ))
    (mol datafile : String)
    (hmol : get_datafile (PVal.str mol) = .ok datafile)
    (st fmin fmax mwp mwb rep mpw vres cycles : ℚ)
    (su cu : List ℝ) (window resolution fwhm Q Pmax : ℚ) :
    acquire_spectra catalog
      (mk_params (PVal.str mol) (PVal.num st) (PVal.num fmin) (PVal.num fmax)
        (PVal.num cycles) (PVal.num mwp) (PVal.num mwb) (PVal.num rep)
        (PVal.num mpw) (PVal.str "range") (PVal.num vres))
      su cu window resolution fwhm Q Pmax =
    Except.ok (SynthResult.success
      (final_grid (fmin - window) (fmax + window) resolution)
      ((mulv
        (add_white_noise
          (accumulate (final_grid (fmin - window) (fmax + window) resolution)
            ((filter_lines (catalog datafile) window (fmin - window)
                (fmax + window)).map (fun fi =>
              (local_grid fi.1 window resolution,
               local_spectrum fi.1 fi.2 window resolution fwhm vrms))))
          cycles false su)
        (add_white_noise
          ((arange fmin (fmax + st) st).foldl
            (fun acc center =>
              addv acc (cavity_lorentzian
                (final_grid (fmin - window) (fmax + window) resolution)
                center Q Pmax))
            (List.replicate
              (final_grid (fmin - window) (fmax + window) resolution).length 0))
          cycles true cu)).map (fun t => |t|))) := by
  have hpc := param_check_mk_params (PVal.str mol) (PVal.num st)
    (PVal.num fmin) (PVal.num fmax) (PVal.num cycles) (PVal.num mwp)
    (PVal.num mwb) (PVal.num rep) (PVal.num mpw) (PVal.str "range")
    (PVal.num vres) rfl rfl rfl rfl rfl rfl rfl rfl rfl rfl rfl
  simp only [acquire_spectra, hpc, Bool.not_true, Bool.false_eq_true,
    if_false, pgetN_mk_params_molecule, pgetN_mk_params_vres,
    pgetN_mk_params_cycles, pgetN_mk_params_fmin, pgetN_mk_params_fmax,
    pgetN_mk_params_stepSize, pgetD_mk_params_mode, pgetD_mk_params_cycles,
    hmol, except_bind_ok, except_pure, compute_crop_bounds,
    apply_cavity_mode_response, PVal.eqStr, PVal.toNum, PVal.isNone]
  simp

/-! ## C2 — cavity response, noise-before-multiply, and `abs` -/

/-- **C2**: on every successful synthesis the returned intensity array is
the elementwise absolute value of the product of the noise-injected
accumulated spectrum with the noise-perturbed cavity response.  In single
mode the response is `R(v) = Pmax*(gamma/2)^2/((v-vres)^2+(gamma/2)^2)`
with `gamma = vres/Q`; in range mode it is the sum of such Lorentzians
(each with `gamma = center/Q`) centred at the points of
`arange(frequencyMin, frequencyMax + stepSize, stepSize)`.  The cavity
noise is added to the response *before* the elementwise multiplication,
and negative excursions are clipped by `abs`, not `max 0`. -/
theorem C2_cavity_response_abs (catalog : String → List (ℚ × ℝ))
    (mol datafile : String)
    (hmol : get_datafile (PVal.str mol) = .ok datafile)
    (st fmin fmax mwp mwb rep mpw vres cycles : ℚ)
    (su cu : List ℝ) (window resolution fwhm Q Pmax : ℚ) :
    (acquire_spectra catalog
      (mk_params (PVal.str mol) (PVal.num st) (PVal.num fmin) (PVal.num fmax)
        (PVal.num cycles) (PVal.num mwp) (PVal.num mwb) (PVal.num rep)
        (PVal.num mpw) (PVal.str "single") (PVal.num vres))
      su cu window resolution fwhm Q Pmax =
    Except.ok (SynthResult.success
      (final_grid (vres - window) (vres + window) resolution)
      ((mulv
        (add_white_noise
          (accumulate (final_grid (vres - window) (vres + window) resolution)
            ((filter_lines (catalog datafile) window (vres - window)
                (vres + window)).map (fun fi =>
              (local_grid fi.1 window resolution,
               local_spectrum fi.1 fi.2 window resolution fwhm vrms))))
          cycles false su)
        (add_white_noise
          ((final_grid (vres - window) (vres + window) resolution).map
            (fun v => (Pmax : ℝ) *
              (((vres / Q / 2 : ℚ) : ℝ) ^ 2 /
                (((v : ℝ) - (vres : ℝ)) ^ 2 + ((vres / Q / 2 : ℚ) : ℝ) ^ 2))))
          cycles true cu)).map (fun t => |t|)))) ∧
    (acquire_spectra catalog
      (mk_params (PVal.str mol) (PVal.num st) (PVal.num fmin) (PVal.num fmax)
        (PVal.num cycles) (PVal.num mwp) (PVal.num mwb) (PVal.num rep)
        (PVal.num mpw) (PVal.str "range") (PVal.num vres))
      su cu window resolution fwhm Q Pmax =
    Except.ok (SynthResult.success
      (final_grid (fmin - window) (fmax + window) resolution)
      ((mulv
        (add_white_noise
          (accumulate (final_grid (fmin - window) (fmax + window) resolution)
            ((filter_lines (catalog datafile) window (fmin - window)
                (fmax + window)).map (fun fi =>
              (local_grid fi.1 window resolution,
               local_spectrum fi.1 fi.2 window resolution fwhm vrms))))
          cycles false su)
        (add_white_noise
          ((arange fmin (fmax + st) st).foldl
            (fun acc center =>
              addv acc
                ((final_grid (fmin - window) (fmax + window) resolution).map
                  (fun v => (Pmax : ℝ) *
                    (((center / Q / 2 : ℚ) : ℝ) ^ 2 /
                      (((v : ℝ) - (center : ℝ)) ^ 2 +
                        ((center / Q / 2 : ℚ) : ℝ) ^ 2)))))
            (List.replicate
              (final_grid (fmin - window) (fmax + window) resolution).length
              0))
          cycles true cu)).map (fun t => |t|)))) := by
  constructor
  · rw [acquire_spectra_single catalog mol datafile hmol st fmin fmax mwp mwb
      rep mpw vres cycles su cu window resolution fwhm Q Pmax]
    simp [cavity_lorentzian]
  · rw [acquire_spectra_range catalog mol datafile hmol st fmin fmax mwp mwb
      rep mpw vres cycles su cu window resolution fwhm Q Pmax]
    simp [cavity_lorentzian]

/-- Witness for C2 at a concrete request (molecule `OCS`, empty catalog,
`cycles = 1`): the synthesis succeeds. -/
theorem C2_cavity_response_abs_witness :
    ∃ x y, acquire_spectra (fun _ => [])
      (mk_params (PVal.str "OCS") (PVal.num 1) (PVal.num 1) (PVal.num 2)
        (PVal.num 1) (PVal.num 1) (PVal.num 1) (PVal.num 1) (PVal.num 1)
        (PVal.str "single") (PVal.num 2))
      [] [] 1 1 1 10000 1 = Except.ok (SynthResult.success x y) :=
  ⟨_, _, (C2_cavity_response_abs (fun _ => []) "OCS" "linelists/OCS.dat" rfl
    1 1 2 1 1 1 1 2 1 [] [] 1 1 1 10000 1).1⟩

/-! ## C5 — error reporting at the synthesis boundary -/

/-- **C5 counterexample**: an unknown molecule identifier does not produce
a structured `success=false` result — `get_datafile` raises `ValueError`
and `acquire_spectra` has no handler, so the exception propagates to the
caller. -/
theorem C5_counterexample :
    acquire_spectra (fun _ => [])
      (mk_params (PVal.str "NOPE") (PVal.num 1) (PVal.num 1) (PVal.num 2)
        (PVal.num 1) (PVal.num 1) (PVal.num 1) (PVal.num 1) (PVal.num 1)
        (PVal.str "single") (PVal.num 2)) [] [] =
    Except.error (PyErr.valueError
      "No data file mapping found for molecule NOPE.") := rfl

/-- Validation is exhaustive about named parameters: `param_check`
requires exactly 11 entries, every key one of the 11 names of
`valid_params`, and no `None` values, so on a true dictionary (unique
keys, the Python dict invariant) a passing check forces every named
parameter to be present and non-`None`.  In particular a range-mode
request lacking `frequencyMin` or `frequencyMax` never gets past
validation, and the range-bounds `ValueError` at `acquire_spectra.py`
line 45 is unreachable. -/
theorem param_check_present (params : Params) (k : String)
    (hk : k ∈ valid_params) (hnd : (params.map Prod.fst).Nodup)
    (hpc : param_check params = true) : (pgetN params k).isNone = false := by
  rw [param_check] at hpc
  by_cases hlen : params.length != 11
  · rw [if_pos hlen] at hpc
    exact absurd hpc (by simp)
  · rw [if_neg hlen] at hpc
    have hlen' : params.length = 11 := by simpa using hlen
    have hall := List.all_eq_true.mp hpc
    have hsub : ∀ x ∈ params.map Prod.fst, x ∈ valid_params := by
      intro x hx
      obtain ⟨pair, hpair, rfl⟩ := List.mem_map.mp hx
      have h := hall pair hpair
      simp only [Bool.and_eq_true] at h
      simpa using h.1
    have hfsub : (params.map Prod.fst).toFinset ⊆ valid_params.toFinset := by
      intro x hx
      rw [List.mem_toFinset] at hx ⊢
      exact hsub x hx
    have hcard1 : (params.map Prod.fst).toFinset.card = 11 := by
      rw [List.toFinset_card_of_nodup hnd, List.length_map, hlen']
    have hcard2 : valid_params.toFinset.card = 11 := by decide
    have heq : (params.map Prod.fst).toFinset = valid_params.toFinset :=
      Finset.eq_of_subset_of_card_le hfsub (by omega)
    have hkmem : k ∈ params.map Prod.fst := by
      rw [← List.mem_toFinset, heq, List.mem_toFinset]
      exact hk
    obtain ⟨pair, hpair, hfst⟩ := List.mem_map.mp hkmem
    have hsome : (params.find? (fun kv => kv.1 == k)).isSome :=
      List.find?_isSome.mpr ⟨pair, hpair, beq_iff_eq.mpr hfst⟩
    obtain ⟨a, ha⟩ := Option.isSome_iff_exists.mp hsome
    have hamem : a ∈ params := List.mem_of_find?_eq_some ha
    have h := hall a hamem
    simp only [Bool.and_eq_true] at h
    rw [pgetN, pget, ha]
    simpa using h.2

/-- **C5 (amended)**: `InvalidParameterSet` (failed validation) is
reported at the synthesis boundary as a structured failure result
(`success=false` plus a message), and that validation subsumes
`MissingRangeBounds`: `param_check` demands all 11 named parameters
present and non-`None`, so a request whose `frequencyMin` or
`frequencyMax` is missing or `None` is reported as the structured
invalid-parameter failure — the dedicated range-bounds `ValueError` at
`acquire_spectra.py` line 45 is unreachable.  `UnknownMolecule`, by
contrast, raises a `ValueError` that propagates uncaught out of the
synthesis call, and `InvalidAveraging` is never checked at all (see
C6). -/
theorem C5_error_reporting (catalog : String → List (ℚ × ℝ))
    (params : Params) (su cu : List ℝ)
    (window resolution fwhm Q Pmax : ℚ) (mol : String)
    (st fr1 fr2 cyc mwp mwb rep mpw vres : ℚ) :
    (param_check params = false →
      acquire_spectra catalog params su cu window resolution fwhm Q Pmax =
        Except.ok (SynthResult.failure
          "One of the given parameters was invalid. Please change some settings and try again.")) ∧
    (molecule_to_file.find? (fun kv => kv.1 == mol) = Option.none →
      acquire_spectra catalog
        (mk_params (PVal.str mol) (PVal.num st) (PVal.num fr1) (PVal.num fr2)
          (PVal.num cyc) (PVal.num mwp) (PVal.num mwb) (PVal.num rep)
          (PVal.num mpw) (PVal.str "single") (PVal.num vres))
        su cu window resolution fwhm Q Pmax =
      Except.error (PyErr.valueError
        ("No data file mapping found for molecule " ++ mol ++ "."))) ∧
    ((params.map Prod.fst).Nodup →
      pgetN params "frequencyMin" = PVal.none →
      acquire_spectra catalog params su cu window resolution fwhm Q Pmax =
        Except.ok (SynthResult.failure
          "One of the given parameters was invalid. Please change some settings and try again.")) ∧
    ((params.map Prod.fst).Nodup →
      pgetN params "frequencyMax" = PVal.none →
      acquire_spectra catalog params su cu window resolution fwhm Q Pmax =
        Except.ok (SynthResult.failure
          "One of the given parameters was invalid. Please change some settings and try again.")) := by
  have hfail : param_check params = false →
      acquire_spectra catalog params su cu window resolution fwhm Q Pmax =
        Except.ok (SynthResult.failure
          "One of the given parameters was invalid. Please change some settings and try again.") := by
    intro h
    simp [acquire_spectra, h]
  refine ⟨hfail, ?_, ?_, ?_⟩
  · intro h
    have hpc := param_check_mk_params (PVal.str mol) (PVal.num st)
      (PVal.num fr1) (PVal.num fr2) (PVal.num cyc) (PVal.num mwp)
      (PVal.num mwb) (PVal.num rep) (PVal.num mpw) (PVal.str "single")
      (PVal.num vres) rfl rfl rfl rfl rfl rfl rfl rfl rfl rfl rfl
    simp only [acquire_spectra, hpc, Bool.not_true, Bool.false_eq_true,
      if_false, pgetN_mk_params_molecule, get_datafile, h]
    simp
  · intro hnd hmin
    rcases hpc : param_check params with _ | _
    · exact hfail hpc
    · exfalso
      have h := param_check_present params "frequencyMin" (by decide) hnd hpc
      rw [hmin] at h
      simp [PVal.isNone] at h
  · intro hnd hmax
    rcases hpc : param_check params with _ | _
    · exact hfail hpc
    · exfalso
      have h := param_check_present params "frequencyMax" (by decide) hnd hpc
      rw [hmax] at h
      simp [PVal.isNone] at h

/-- Witness for C5 at concrete inputs: an invalid parameter set (the empty
dictionary) gets the structured failure; the unknown molecule `NOPE2`
escapes as a `ValueError`; and a range-mode request with
`frequencyMin = None` (the spec's Scenario C) gets the structured
invalid-parameter failure from the synthesis call itself, not a
range-bounds `ValueError`. -/
theorem C5_error_reporting_witness :
    acquire_spectra (fun _ => []) [] [] [] =
      Except.ok (SynthResult.failure
        "One of the given parameters was invalid. Please change some settings and try again.") ∧
    acquire_spectra (fun _ => [])
      (mk_params (PVal.str "NOPE2") (PVal.num 1) (PVal.num 1) (PVal.num 2)
        (PVal.num 1) (PVal.num 1) (PVal.num 1) (PVal.num 1) (PVal.num 1)
        (PVal.str "single") (PVal.num 2)) [] [] =
      Except.error (PyErr.valueError
        "No data file mapping found for molecule NOPE2.") ∧
    acquire_spectra (fun _ => [])
      (mk_params (PVal.str "OCS") (PVal.num 1) PVal.none (PVal.num 2)
        (PVal.num 1) (PVal.num 1) (PVal.num 1) (PVal.num 1) (PVal.num 1)
        (PVal.str "range") (PVal.num 2)) [] [] =
      Except.ok (SynthResult.failure
        "One of the given parameters was invalid. Please change some settings and try again.") :=
  ⟨(C5_error_reporting (fun _ => []) [] [] [] 25 (1/1000) (7/1000) 10000 1
      "NOPE2" 1 1 2 1 1 1 1 1 2).1 rfl,
   (C5_error_reporting (fun _ => []) [] [] [] 25 (1/1000) (7/1000) 10000 1
      "NOPE2" 1 1 2 1 1 1 1 1 2).2.1 rfl,
   (C5_error_reporting (fun _ => [])
      (mk_params (PVal.str "OCS") (PVal.num 1) PVal.none (PVal.num 2)
        (PVal.num 1) (PVal.num 1) (PVal.num 1) (PVal.num 1) (PVal.num 1)
        (PVal.str "range") (PVal.num 2)) [] [] 25 (1/1000) (7/1000) 10000 1
      "NOPE2" 1 1 2 1 1 1 1 1 2).2.2.1 (by decide) rfl⟩

/-! ## C6 — the noise injector -/

/-- **C6 counterexample**: the noise injector never fails with
`InvalidAveraging`: a full synthesis with `numCyclesPerStep = 0` still
returns a success result (numpy merely produces non-finite noise samples
from `0.05/sqrt(0)`). -/
theorem C6_counterexample :
    ∃ x y, acquire_spectra (fun _ => [])
      (mk_params (PVal.str "OCS") (PVal.num 1) (PVal.num 1) (PVal.num 2)
        (PVal.num 0) (PVal.num 1) (PVal.num 1) (PVal.num 1) (PVal.num 1)
        (PVal.str "single") (PVal.num 2)) [] [] 1 1 1 10000 1 =
      Except.ok (SynthResult.success x y) :=
  ⟨_, _, acquire_spectra_single (fun _ => []) "OCS" "linelists/OCS.dat" rfl
    1 1 2 1 1 1 1 2 0 [] [] 1 1 1 10000 1⟩

theorem getD_addv (xs ys : List ℝ) (i : ℕ) (hx : i < xs.length)
    (hy : i < ys.length) :
    (addv xs ys).getD i 0 = xs.getD i 0 + ys.getD i 0 := by
  have h : i < (addv xs ys).length := by rw [length_addv]; omega
  rw [List.getD_eq_getElem _ _ h, List.getD_eq_getElem _ _ hx,
    List.getD_eq_getElem _ _ hy]
  simp [addv]

theorem getD_scale (c : ℝ) (xs : List ℝ) (i : ℕ) (hx : i < xs.length) :
    (scale c xs).getD i 0 = c * xs.getD i 0 := by
  have h : i < (scale c xs).length := by rw [length_scale]; exact hx
  rw [List.getD_eq_getElem _ _ h, List.getD_eq_getElem _ _ hx]
  simp [scale]

/-- **C6 (amended)**: the noise injector performs no validation of
`cyclesPerStep` (a non-positive value flows into `sqrt` producing
non-finite samples, never an `InvalidAveraging` failure — see the
counterexample); for `cyclesPerStep > 0` it adds one scaled draw per grid
point, `noiseLevel * unit[i]` with
`noiseLevel = baseNoiseLevel / sqrt(cyclesPerStep)`, where the cavity
channel's base constant `0.01` is smaller than the molecular-signal
channel's `0.05`. -/
theorem C6_noise_injection (spectrum : List ℝ) (cycles : ℚ) (cav : Bool)
    (unit : List ℝ) (i : ℕ) (hcyc : 0 < cycles)
    (hlen : unit.length = spectrum.length) (hi : i < spectrum.length) :
    (add_white_noise spectrum cycles cav unit).length = spectrum.length ∧
    (add_white_noise spectrum cycles cav unit).getD i 0 =
      spectrum.getD i 0 +
        ((if cav then 0.01 else 0.05) / Real.sqrt (cycles : ℝ)) *
          unit.getD i 0 ∧
    noise_level cycles true * Real.sqrt (cycles : ℝ) = 0.01 ∧
    noise_level cycles false * Real.sqrt (cycles : ℝ) = 0.05 ∧
    noise_level cycles true < noise_level cycles false := by
  have hcyc' : (0 : ℝ) < (cycles : ℝ) := by exact_mod_cast hcyc
  have hs : 0 < Real.sqrt (cycles : ℝ) := Real.sqrt_pos.mpr hcyc'
  refine ⟨?_, ?_, ?_, ?_, ?_⟩
  · rw [add_white_noise, length_addv, length_scale, hlen]
    omega
  · rw [add_white_noise,
      getD_addv _ _ _ hi (by rw [length_scale]; omega),
      getD_scale _ _ _ (by omega)]
    rcases cav with _ | _
    · simp [noise_level]
    · simp [noise_level]
  · rw [noise_level, if_pos rfl]
    exact div_mul_cancel₀ _ (ne_of_gt hs)
  · rw [noise_level, if_neg (by simp)]
    exact div_mul_cancel₀ _ (ne_of_gt hs)
  · rw [noise_level, noise_level, if_pos rfl, if_neg (by simp)]
    rw [div_lt_div_iff₀ hs hs]
    nlinarith

/-- Witness for C6 at `spectrum = [1]`, `cycles = 4`, `unit = [0]`: the
hypotheses hold and the cavity noise level is below the signal one. -/
theorem C6_noise_injection_witness :
    (add_white_noise [1] 4 false [0]).length = 1 ∧
    noise_level 4 true < noise_level 4 false :=
  ⟨(C6_noise_injection [1] 4 false [0] 0 (by norm_num) rfl
      (by norm_num)).1,
   (C6_noise_injection [1] 4 false [0] 0 (by norm_num) rfl
      (by norm_num)).2.2.2.2⟩

end FTMW
